import Mathlib

/-!
# Gas Fee Optimizer — verification of the specification against the source

Shallow embedding of `src/gas-optimizer.js`.  JavaScript numbers (floats)
are modelled as rationals `ℚ`; wei amounts (ethers `BigNumber`, arbitrary
precision integers) are modelled as `Int`; JavaScript objects with
optional fields are modelled as structures with `Option` fields; fallible
asynchronous calls are modelled as `Except String` values carried by an
explicit `Provider` record (the external RPC world).
-/

namespace GasOpt

/-- One entry of the `CHAINS` registry (`src/gas-optimizer.js` lines 27-31):
a display name and the name of the environment variable holding the RPC URL. -/
structure ChainMeta where
  name : String
  rpcEnv : String
deriving DecidableEq

/-- The static `CHAINS` registry, in source (insertion/iteration) order. -/
def CHAINS : List (String × ChainMeta) :=
  [("base", ⟨"Base", "RPC_BASE"⟩),
   ("optimism", ⟨"Optimism", "RPC_OPTIMISM"⟩),
   ("arbitrum", ⟨"Arbitrum", "RPC_ARBITRUM"⟩)]

/-- A per-chain reading, as produced by the pipeline
(`fetchGasData`, lines 64-69, and the missing-env branch, line 93).
`none` models an absent / `null` field of the JavaScript object. -/
structure GasReading where
  gas_price_gwei : Option ℚ
  priority_fee_gwei : Option ℚ
  error : Option String
deriving DecidableEq

/-- JavaScript truthiness of the `error` field (`if (val.error) continue`,
line 77): a string is truthy iff it is non-empty; an absent field is falsy. -/
def hasError (val : GasReading) : Bool :=
  match val.error with
  | none => false
  | some s => s != ""

/-- The score computed at lines 78-79:
`total = val.gas_price_gwei + pf` with `pf = 0` when the priority fee is
`null`/`undefined`.  In every reading the pipeline produces without an
error, `gas_price_gwei` is populated; `getD 0` totalises the model there
(JavaScript would produce `NaN`, which `ℚ` cannot represent — all theorems
about the ranker therefore carry the data-model well-formedness
hypothesis `WFReading`). -/
def scoreOf (val : GasReading) : ℚ :=
  val.gas_price_gwei.getD 0 + val.priority_fee_gwei.getD 0

/-- One iteration of the loop of `chooseBestChain` (lines 76-83):
skip truthy-error entries; replace the running best only when the new
total is strictly lower (`total < best.score`). -/
def chooseStep (best : Option (String × ℚ)) (kv : String × GasReading) :
    Option (String × ℚ) :=
  if hasError kv.2 then best
  else
    let total := scoreOf kv.2
    match best with
    | none => some (kv.1, total)
    | some b => if total < b.2 then some (kv.1, total) else b

/-- The ranker `chooseBestChain` (lines 73-85): fold the entries in iteration order,
return the best chain's key, or `none` when no entry qualified. -/
def chooseBestChain (chains : List (String × GasReading)) : Option String :=
  (chains.foldl chooseStep none).map Prod.fst

/-- The spec's data-model invariant on a `GasReading` (§3): exactly one of
a successful numeric reading or a (human-readable, hence non-empty) error
string is populated; an error reading has no numeric fields. -/
def WFReading (r : GasReading) : Prop :=
  (r.error = none ∧ r.gas_price_gwei ≠ none) ∨
  (r.error ≠ none ∧ r.error ≠ some "" ∧
    r.gas_price_gwei = none ∧ r.priority_fee_gwei = none)

instance (r : GasReading) : Decidable (WFReading r) := by
  unfold WFReading; infer_instance

theorem hasError_eq_false_iff {r : GasReading} (h : WFReading r) :
    hasError r = false ↔ r.error = none := by
  rcases h with ⟨he, -⟩ | ⟨he, hne, -, -⟩
  · simp [hasError, he]
  · rcases h' : r.error with - | e
    · exact absurd h' he
    · have hne' : e ≠ "" := fun h0 => hne (by rw [h', h0])
      simp [hasError, h', hne']

/-- Folding from an established best always yields a best whose score is
no larger than the accumulator's, is either the accumulator or one of the
non-error entries, and is a lower bound of every non-error entry's score. -/
theorem foldl_chooseStep_some (l : List (String × GasReading)) :
    ∀ b : String × ℚ, ∃ c : String × ℚ,
      l.foldl chooseStep (some b) = some c ∧ c.2 ≤ b.2 ∧
      (c = b ∨ ∃ kv ∈ l, hasError kv.2 = false ∧ c.1 = kv.1 ∧ c.2 = scoreOf kv.2) ∧
      (∀ kv ∈ l, hasError kv.2 = false → c.2 ≤ scoreOf kv.2) := by
  induction l with
  | nil => intro b; exact ⟨b, rfl, le_refl _, Or.inl rfl, by simp⟩
  | cons hd tl ih =>
    intro b
    by_cases he : hasError hd.2
    · obtain ⟨c, hc, hle, hmem, hlb⟩ := ih b
      refine ⟨c, ?_, hle, ?_, ?_⟩
      · simpa [List.foldl_cons, chooseStep, he] using hc
      · rcases hmem with h | ⟨kv, hkv, hkv2, h1, h2⟩
        · exact Or.inl h
        · exact Or.inr ⟨kv, List.mem_cons_of_mem _ hkv, hkv2, h1, h2⟩
      · intro kv hkv hkve
        rcases List.mem_cons.mp hkv with h | h
        · exact absurd (h ▸ hkve) (by simp [he])
        · exact hlb kv h hkve
    · simp only [Bool.not_eq_true] at he
      by_cases hlt : scoreOf hd.2 < b.2
      · obtain ⟨c, hc, hle, hmem, hlb⟩ := ih (hd.1, scoreOf hd.2)
        refine ⟨c, ?_, le_trans hle (le_of_lt hlt), ?_, ?_⟩
        · simpa [List.foldl_cons, chooseStep, he, hlt] using hc
        · rcases hmem with h | ⟨kv, hkv, hkv2, h1, h2⟩
          · exact Or.inr ⟨hd, List.mem_cons_self _ _, he, by simp [h]⟩
          · exact Or.inr ⟨kv, List.mem_cons_of_mem _ hkv, hkv2, h1, h2⟩
        · intro kv hkv hkve
          rcases List.mem_cons.mp hkv with h | h
          · exact h ▸ hle
          · exact hlb kv h hkve
      · obtain ⟨c, hc, hle, hmem, hlb⟩ := ih b
        refine ⟨c, ?_, hle, ?_, ?_⟩
        · simpa [List.foldl_cons, chooseStep, he, hlt] using hc
        · rcases hmem with h | ⟨kv, hkv, hkv2, h1, h2⟩
          · exact Or.inl h
          · exact Or.inr ⟨kv, List.mem_cons_of_mem _ hkv, hkv2, h1, h2⟩
        · intro kv hkv hkve
          rcases List.mem_cons.mp hkv with h | h
          · exact le_trans hle (h ▸ not_lt.mp hlt)
          · exact hlb kv h hkve

/-- Folding from `none` yields `none` exactly when every entry carries a
truthy error. -/
theorem foldl_chooseStep_none_iff (l : List (String × GasReading)) :
    l.foldl chooseStep none = none ↔ ∀ kv ∈ l, hasError kv.2 = true := by
  induction l with
  | nil => simp
  | cons hd tl ih =>
    by_cases he : hasError hd.2
    · simp only [List.foldl_cons, chooseStep, he, if_pos]
      rw [ih]
      constructor
      · intro h kv hkv
        rcases List.mem_cons.mp hkv with h' | h'
        · exact h' ▸ he
        · exact h kv h'
      · intro h kv hkv
        exact h kv (List.mem_cons_of_mem _ hkv)
    · obtain ⟨c, hc, -, -, -⟩ := foldl_chooseStep_some tl (hd.1, scoreOf hd.2)
      simp only [List.foldl_cons, chooseStep, he, if_neg, Bool.false_eq_true,
        not_false_iff]
      constructor
      · intro h
        rw [hc] at h
        exact absurd h (by simp)
      · intro h
        exact absurd (h hd (List.mem_cons_self _ _)) (by simp [he])

/-- When the full fold yields a best, that best comes from a non-error
entry and its score is a lower bound of all non-error entries. -/
theorem foldl_chooseStep_none_some (l : List (String × GasReading))
    (c : String × ℚ) (h : l.foldl chooseStep none = some c) :
    (∃ kv ∈ l, hasError kv.2 = false ∧ c.1 = kv.1 ∧ c.2 = scoreOf kv.2) ∧
    (∀ kv ∈ l, hasError kv.2 = false → c.2 ≤ scoreOf kv.2) := by
  induction l with
  | nil => exact absurd h (by simp)
  | cons hd tl ih =>
    by_cases he : hasError hd.2
    · rw [List.foldl_cons] at h
      have h' : tl.foldl chooseStep none = some c := by
        simpa [chooseStep, he] using h
      obtain ⟨⟨kv, hkv, hkv2, h1, h2⟩, hlb⟩ := ih h'
      refine ⟨⟨kv, List.mem_cons_of_mem _ hkv, hkv2, h1, h2⟩, ?_⟩
      intro kv' hkv' hkve
      rcases List.mem_cons.mp hkv' with h'' | h''
      · exact absurd (h'' ▸ hkve) (by simp [he])
      · exact hlb kv' h'' hkve
    · simp only [Bool.not_eq_true] at he
      rw [List.foldl_cons] at h
      have h' : tl.foldl chooseStep (some (hd.1, scoreOf hd.2)) = some c := by
        simpa [chooseStep, he] using h
      obtain ⟨c', hc', hle, hmem, hlb⟩ := foldl_chooseStep_some tl (hd.1, scoreOf hd.2)
      rw [hc'] at h'
      obtain rfl : c' = c := Option.some.inj h'
      constructor
      · rcases hmem with hcb | ⟨kv, hkv, hkv2, h1, h2⟩
        · exact ⟨hd, List.mem_cons_self _ _, he, by simp [hcb]⟩
        · exact ⟨kv, List.mem_cons_of_mem _ hkv, hkv2, h1, h2⟩
      · intro kv hkv hkve
        rcases List.mem_cons.mp hkv with h'' | h''
        · exact h'' ▸ hle
        · exact hlb kv h'' hkve

/-- An established best whose score is a lower bound of all later
non-error entries survives the rest of the fold untouched. -/
theorem foldl_chooseStep_stable (l : List (String × GasReading)) :
    ∀ b : String × ℚ, (∀ kv ∈ l, hasError kv.2 = false → b.2 ≤ scoreOf kv.2) →
      l.foldl chooseStep (some b) = some b := by
  induction l with
  | nil => intro b _; rfl
  | cons hd tl ih =>
    intro b hb
    by_cases he : hasError hd.2
    · rw [List.foldl_cons]
      have : chooseStep (some b) hd = some b := by simp [chooseStep, he]
      rw [this]
      exact ih b (fun kv hkv => hb kv (List.mem_cons_of_mem _ hkv))
    · simp only [Bool.not_eq_true] at he
      have hge : b.2 ≤ scoreOf hd.2 := hb hd (List.mem_cons_self _ _) he
      rw [List.foldl_cons]
      have : chooseStep (some b) hd = some b := by
        simp [chooseStep, he, not_lt.mpr hge]
      rw [this]
      exact ih b (fun kv hkv => hb kv (List.mem_cons_of_mem _ hkv))

/-! ## Gas Data Fetcher (`fetchGasData`, lines 38-71) -/

/-- Parameters of the one `eth_feeHistory` request the fetcher makes
(lines 47-51): block count, newest block, reward percentiles. -/
structure FeeHistoryReq where
  blockCount : Nat
  newestBlock : Int
  percentiles : List Nat
deriving DecidableEq

/-- Shape of an `eth_feeHistory` response as the code inspects it
(lines 52-59): an optional `reward` field holding, per block, an optional
list of per-percentile reward values.  Hex-encoded integers are modelled
as already-parsed `Int`s; a `null`/absent response object and an absent
`reward` field are both `reward = none`. -/
structure FeeHistoryRes where
  reward : Option (List (Option (List Int)))
deriving DecidableEq

/-- The external RPC endpoint behind one provider: the outcomes of the
three calls the fetcher can make.  `Except.error` models a
rejected/throwing call. -/
structure Provider where
  getGasPrice : Except String Int
  getBlockNumber : Except String Int
  feeHistory : FeeHistoryReq → Except String FeeHistoryRes

/-- The `rewards` local of line 54: per block, keep the first-percentile
reward when the block reports one (`r && r[0]`), and drop the rest
(`filter(Boolean)`). -/
def rewards (rw : List (Option (List Int))) : List Int :=
  rw.filterMap (fun r => r.bind List.head?)

/-- The inner best-effort step of `fetchGasData` (lines 42-62): query the
latest block number, request fee history for the last 5 blocks at the
50th percentile, average the reported per-block rewards with `BigNumber`
integer division (truncation toward zero), convert from wei to gwei.
Any failure collapses to `none` (the `catch` at lines 60-62). -/
def estimatePriorityFee (p : Provider) : Option ℚ :=
  match p.getBlockNumber with
  | .error _ => none
  | .ok latest =>
    match p.feeHistory ⟨5, latest, [50]⟩ with
    | .error _ => none
    | .ok res =>
      match res.reward with
      | none => none
      | some rw =>
        if rw.isEmpty then none
        else
          if (rewards rw).isEmpty then none
          else
            some (((((rewards rw).foldl (· + ·) 0).tdiv
              ((rewards rw).length : ℤ) : ℤ) : ℚ) / (10 ^ 9 : ℚ))

/-- The fetcher `fetchGasData` (lines 38-71): on a successful `eth_gasPrice` call,
a reading with the gas price converted to gwei and the best-effort
priority-fee estimate, and no error; on a failed primary call, an error
reading with no numeric fields. -/
def fetchGasData (p : Provider) : GasReading :=
  match p.getGasPrice with
  | .error err =>
      { gas_price_gwei := none, priority_fee_gwei := none, error := some err }
  | .ok gasPrice =>
      { gas_price_gwei := some ((gasPrice : ℚ) / (10 ^ 9 : ℚ)),
        priority_fee_gwei := estimatePriorityFee p,
        error := none }

/-! ## Orchestrator (`main`, lines 87-127) -/

/-- The ambient world of one run: the timestamp captured at line 88, the
process environment, the provider reachable at each RPC URL, the outcome
of the one optional webhook POST, and whether the report write succeeds. -/
structure World where
  timestamp : String
  env : String → Option String
  providerOf : String → Provider
  postResult : Except String Unit
  writeOk : Bool

/-- Resolution of an environment variable as the code tests it
(`if (!rpc)`, line 92, and `if (webhook)`, line 116): an unset variable
and an empty string are both falsy. -/
def resolveEnv (w : World) (envVar : String) : Option String :=
  match w.env envVar with
  | none => none
  | some s => if s == "" then none else some s

/-- The error reading recorded at line 93 when a chain's RPC environment
variable is missing. -/
def missingReading (envVar : String) : GasReading :=
  { gas_price_gwei := none, priority_fee_gwei := none,
    error := some ("Missing env " ++ envVar) }

/-- The reading obtained for one registry entry (lines 90-98): the
missing-env error reading without any provider interaction, or the
fetcher's result against the provider at the resolved URL. -/
def readingFor (w : World) (meta : ChainMeta) : GasReading :=
  match resolveEnv w meta.rpcEnv with
  | none => missingReading meta.rpcEnv
  | some rpc => fetchGasData (w.providerOf rpc)

/-- The `results` object after the loop of lines 90-98: one entry per
registry chain, in registry order. -/
def runResults (w : World) : List (String × GasReading) :=
  CHAINS.map (fun km => (km.1, readingFor w km.2))

/-- The recommendation string of line 101, built from the ranking result.
Note the code interpolates the chain id (`best_chain`), not the registry
display name. -/
def recommendationFor : Option String → String
  | some b => "Send your transactions on " ++ b ++ " now for lowest fees."
  | none => "No recommendation (insufficient data)."

/-- The report object assembled at lines 100-108. -/
structure Report where
  timestamp : String
  best_chain : Option String
  recommendation : String
  chains : List (String × GasReading)
deriving DecidableEq

/-- Report Builder: lines 100-108. -/
def buildReport (timestamp : String) (results : List (String × GasReading)) :
    Report :=
  let best := chooseBestChain results
  { timestamp := timestamp, best_chain := best,
    recommendation := recommendationFor best, chains := results }

/-- The report produced by one run. -/
def runReport (w : World) : Report :=
  buildReport w.timestamp (runResults w)

/-! ## Report serialization (`JSON.stringify(report, null, 2)`, line 111)

The textual rendering and re-parsing of a JSON document are the
platform's (`JSON.stringify`/`JSON.parse`), external to this repository
and mutually inverse on JSON values by the JSON standard; the
serialization this code controls is the mapping from the report to its
JSON value, modelled here, with JavaScript's omission of absent
(`undefined`) fields and preservation of `null` fields. -/

/-- JSON values (arrays do not occur in a report). -/
inductive Json where
  | null : Json
  | str : String → Json
  | num : ℚ → Json
  | obj : List (String × Json) → Json

/-- The JSON value of one per-chain reading: an error reading serializes
to an object with only the `error` key (lines 93 and 69); a successful
reading to an object with the gas price and a possibly-`null` priority
fee (lines 64-67). -/
def readingToJson (r : GasReading) : Json :=
  match r.error with
  | some e => .obj [("error", .str e)]
  | none =>
      .obj [("gas_price_gwei",
              match r.gas_price_gwei with | some g => .num g | none => .null),
            ("priority_fee_gwei",
              match r.priority_fee_gwei with | some q => .num q | none => .null)]

/-- The JSON value of the report object of lines 103-108. -/
def reportToJson (rep : Report) : Json :=
  .obj [("timestamp", .str rep.timestamp),
        ("best_chain",
          match rep.best_chain with | some b => .str b | none => .null),
        ("recommendation", .str rep.recommendation),
        ("chains", .obj (rep.chains.map (fun kv => (kv.1, readingToJson kv.2))))]

/-- Modelled from the spec (§8 round-trip): reading one per-chain entry
back out of a parsed report file — an object with an `error` string is an
error reading; otherwise the numeric fields are read, `null` priority fee
meaning absent. -/
def jsonToReading : Json → Option GasReading
  | .obj fields =>
    match fields.lookup "error" with
    | some (.str e) => some ⟨none, none, some e⟩
    | some _ => none
    | none =>
      match fields.lookup "gas_price_gwei", fields.lookup "priority_fee_gwei" with
      | some (.num g), some (.num q) => some ⟨some g, some q, none⟩
      | some (.num g), some .null => some ⟨some g, none, none⟩
      | _, _ => none
  | _ => none

/-- Modelled from the spec (§8 round-trip): reading the `chains` mapping
back, entry by entry. -/
def decodeChains : List (String × Json) → Option (List (String × GasReading))
  | [] => some []
  | (k, j) :: rest =>
    match jsonToReading j, decodeChains rest with
    | some r, some rs => some ((k, r) :: rs)
    | _, _ => none

/-- Modelled from the spec (§8 round-trip): reading a whole report back
out of a parsed report file. -/
def jsonToReport : Json → Option Report
  | .obj fields =>
    match fields.lookup "timestamp", fields.lookup "best_chain",
          fields.lookup "recommendation", fields.lookup "chains" with
    | some (.str ts), some bj, some (.str rec), some (.obj cfields) =>
      let best : Option (Option String) :=
        match bj with
        | .null => some none
        | .str b => some (some b)
        | _ => none
      match best, decodeChains cfields with
      | some b, some chs => some ⟨ts, b, rec, chs⟩
      | _, _ => none
    | _, _, _, _ => none
  | _ => none

/-! ## Report Sink and run trace (lines 110-127) -/

/-- The filename fragment of line 110: every colon and dot of the
timestamp replaced by a dash. -/
def sanitizeTimestamp (ts : String) : String :=
  ts.map (fun c => if c == ':' || c == '.' then '-' else c)

/-- The output file path of line 110 (`REPORTS_DIR` is `reports/` next to
the source directory, line 24). -/
def reportFilename (ts : String) : String :=
  "reports/report-" ++ sanitizeTimestamp ts ++ ".json"

/-- Observable side effects of one run, in program order. -/
inductive Event where
  | wrote : String → Json → Event
  | loggedMsg : String → Event
  | postAttempt : String → Json → Event
  | warned : String → Event
  | printedReport : Json → Event

/-- The Orchestrator/Sink tail of `main` (lines 100-127) plus the exit
code: write the report file, log it, attempt the optional webhook POST —
logging a warning on failure (lines 117-122) — and print the report.
A failing write escapes to the `catch` of line 130 and exits 1. -/
def main (w : World) : List Event × Nat :=
  let rj := reportToJson (runReport w)
  let filename := reportFilename w.timestamp
  if w.writeOk then
    ([Event.wrote filename rj, Event.loggedMsg ("Wrote " ++ filename)] ++
     (match resolveEnv w "WEBHOOK_URL" with
      | some url =>
        match w.postResult with
        | .ok _ => [Event.postAttempt url rj, Event.loggedMsg "Posted to webhook"]
        | .error e =>
            [Event.postAttempt url rj,
             Event.warned ("Webhook post failed: " ++ e)]
      | none => []) ++
     [Event.printedReport rj], 0)
  else ([], 1)

/-! ## Example readings used by the spec's testable properties (§8) -/

/-- Readings `A: score 10, B: score 5, C: error` (§8, Ranker example). -/
def exReadingsC1 : List (String × GasReading) :=
  [("A", ⟨some 10, none, none⟩),
   ("B", ⟨some 5, none, none⟩),
   ("C", ⟨none, none, some "boom"⟩)]

/-- All-error readings (§8). -/
def exReadingsAllErr : List (String × GasReading) :=
  [("A", ⟨none, none, some "down"⟩), ("B", ⟨none, none, some "down"⟩)]

/-- Tied readings `A: score 7, B: score 7` (§8, tie-break example). -/
def exReadingsTie : List (String × GasReading) :=
  [("A", ⟨some 7, none, none⟩), ("B", ⟨some 7, none, none⟩)]

/-- C1: over every readings map conforming to the data model, the Chain
Ranker considers only entries whose error field is absent, scores each as
`gasPriceGwei + (priorityFeeGwei if present else 0)`, and returns a chain
id of minimum score; `none` exactly when every entry has an error.  In
particular readings `A: 10, B: 5, C: error` give `B`, and all-error
readings give `none`. -/
theorem ranker_min_score_spec :
    (∀ l : List (String × GasReading), (∀ kv ∈ l, WFReading kv.2) →
      ((chooseBestChain l = none ↔ ∀ kv ∈ l, kv.2.error ≠ none) ∧
       ∀ k, chooseBestChain l = some k →
         ∃ r, (k, r) ∈ l ∧ r.error = none ∧
           ∀ kv ∈ l, kv.2.error = none → scoreOf r ≤ scoreOf kv.2)) ∧
    chooseBestChain exReadingsC1 = some "B" ∧
    chooseBestChain exReadingsAllErr = none := by
  refine ⟨?_, ?_, ?_⟩
  · intro l hwf
    have herr : ∀ kv ∈ l, (hasError kv.2 = true ↔ kv.2.error ≠ none) := by
      intro kv hkv
      have h := hasError_eq_false_iff (hwf kv hkv)
      constructor
      · intro ht hnone
        rw [h.mpr hnone] at ht
        cases ht
      · intro hne
        cases hb : hasError kv.2
        · exact absurd (h.mp hb) hne
        · rfl
    constructor
    · rw [chooseBestChain, Option.map_eq_none', foldl_chooseStep_none_iff]
      constructor
      · intro h kv hkv
        exact (herr kv hkv).mp (h kv hkv)
      · intro h kv hkv
        exact (herr kv hkv).mpr (h kv hkv)
    · intro k hk
      rw [chooseBestChain] at hk
      obtain ⟨c, hc, hck⟩ := Option.map_eq_some'.mp hk
      obtain ⟨⟨kv, hkv, hkve, h1, h2⟩, hlb⟩ := foldl_chooseStep_none_some l c hc
      refine ⟨kv.2, ?_, ?_, ?_⟩
      · rw [← hck, h1]
        exact hkv
      · exact (hasError_eq_false_iff (hwf kv hkv)).mp hkve
      · intro kv' hkv' he'
        have hkve' : hasError kv'.2 = false :=
          (hasError_eq_false_iff (hwf kv' hkv')).mpr he'
        rw [← h2]
        exact hlb kv' hkv' hkve'
  · simp [chooseBestChain, chooseStep, exReadingsC1, hasError, scoreOf]
    norm_num
  · simp [chooseBestChain, chooseStep, exReadingsAllErr, hasError]

/-- Witness for C1: the general part applied to the concrete §8 example,
the data-model hypothesis discharged by computation. -/
theorem ranker_min_score_spec_witness :
    chooseBestChain exReadingsC1 = none ↔ ∀ kv ∈ exReadingsC1, kv.2.error ≠ none :=
  (ranker_min_score_spec.1 exReadingsC1 (by decide)).1

/-- C4: when a non-error entry's score is strictly below every earlier
non-error score and no later non-error score is below it, the Ranker
returns that (first-seen minimal) entry's key; a later entry replaces the
running best only when its score is strictly lower; and on the §8 tie
example `A: 7, B: 7` the first-registered chain `A` wins.  The Ranker is
a pure function of the entry list, so repeated calls with identical input
are identical. -/
theorem ranker_tie_break_spec :
    (∀ (l₁ l₂ : List (String × GasReading)) (k : String) (r : GasReading),
      hasError r = false →
      (∀ kv ∈ l₁, hasError kv.2 = false → scoreOf r < scoreOf kv.2) →
      (∀ kv ∈ l₂, hasError kv.2 = false → scoreOf r ≤ scoreOf kv.2) →
      chooseBestChain (l₁ ++ (k, r) :: l₂) = some k) ∧
    (∀ (b : String × ℚ) (kv : String × GasReading),
      hasError kv.2 = true ∨ ¬ scoreOf kv.2 < b.2 →
      chooseStep (some b) kv = some b) ∧
    chooseBestChain exReadingsTie = some "A" := by
  refine ⟨?_, ?_, ?_⟩
  · intro l₁ l₂ k r hr h1 h2
    rw [chooseBestChain, List.foldl_append]
    have hstable := foldl_chooseStep_stable l₂ (k, scoreOf r) h2
    cases hfold : l₁.foldl chooseStep none with
    | none =>
      rw [List.foldl_cons]
      have hstep : chooseStep none (k, r) = some (k, scoreOf r) := by
        simp [chooseStep, hr]
      rw [hstep, hstable]
      rfl
    | some b =>
      obtain ⟨⟨kv, hkv, hkve, hb1, hb2⟩, -⟩ := foldl_chooseStep_none_some l₁ b hfold
      have hlt : scoreOf r < b.2 := by
        rw [hb2]
        exact h1 kv hkv hkve
      rw [List.foldl_cons]
      have hstep : chooseStep (some b) (k, r) = some (k, scoreOf r) := by
        simp [chooseStep, hr, hlt]
      rw [hstep, hstable]
      rfl
  · intro b kv h
    rcases h with he | hge
    · simp [chooseStep, he]
    · by_cases he : hasError kv.2
      · simp [chooseStep, he]
      · simp only [Bool.not_eq_true] at he
        simp [chooseStep, he, hge]
  · simp [chooseBestChain, chooseStep, exReadingsTie, hasError, scoreOf]

/-- Witness for C4: the first-seen-minimum part applied at a concrete
input where the minimum first occurs in the middle of the list. -/
theorem ranker_tie_break_spec_witness :
    chooseBestChain ([("A", (⟨some 8, none, none⟩ : GasReading))] ++
      ("B", (⟨some 7, none, none⟩ : GasReading)) ::
        [("C", (⟨some 7, none, none⟩ : GasReading))]) = some "B" :=
  ranker_tie_break_spec.1 _ _ "B" ⟨some 7, none, none⟩ rfl
    (by
      intro kv hkv hne
      simp only [List.mem_singleton] at hkv
      subst hkv
      norm_num [scoreOf])
    (by
      intro kv hkv hne
      simp only [List.mem_singleton] at hkv
      subst hkv
      norm_num [scoreOf])

/-- C10: a `some` result of the Ranker is always a key of the input map
whose reading has no truthy error field. -/
theorem ranker_result_mem_no_error (l : List (String × GasReading)) (k : String)
    (h : chooseBestChain l = some k) :
    ∃ r, (k, r) ∈ l ∧ hasError r = false := by
  obtain ⟨c, hc, hck⟩ := Option.map_eq_some'.mp h
  obtain ⟨⟨kv, hkv, hkve, h1, h2⟩, -⟩ := foldl_chooseStep_none_some l c hc
  refine ⟨kv.2, ?_, hkve⟩
  rw [← hck, h1]
  exact hkv

/-- Witness for C10: applied at the §8 example, whose result is `B`. -/
theorem ranker_result_mem_no_error_witness :
    ∃ r, ("B", r) ∈ exReadingsC1 ∧ hasError r = false :=
  ranker_result_mem_no_error exReadingsC1 "B" (by
    simp [chooseBestChain, chooseStep, exReadingsC1, hasError, scoreOf]
    norm_num)

/-- C2: for every run — whatever the environment or the providers do —
the key set of the report's `chains` map is exactly the registry's chain
id list. -/
theorem report_chains_keys (w : World) :
    (runReport w).chains.map Prod.fst = CHAINS.map Prod.fst ∧
    CHAINS.map Prod.fst = ["base", "optimism", "arbitrum"] :=
  ⟨rfl, rfl⟩

/-! ## Configuration-error handling (C5) -/

/-- A world in which `RPC_BASE` is unset and every reachable provider
rejects everything. -/
def worldMissingBase : World :=
  { timestamp := "2025-09-28T12:00:00Z",
    env := fun v => if v == "RPC_BASE" then none else some ("https://" ++ v),
    providerOf := fun _ =>
      { getGasPrice := .error "unused", getBlockNumber := .error "unused",
        feeHistory := fun _ => .error "unused" },
    postResult := .ok (),
    writeOk := true }

/-- C5: a configured chain whose RPC environment variable resolves to
nothing gets, in every world and for every possible provider behaviour,
the immediate `Missing env` error reading — error populated, both numeric
fields absent — and all other configured chains still appear. -/
theorem missing_env_reading (w : World) (key : String) (meta : ChainMeta)
    (hmem : (key, meta) ∈ CHAINS) (henv : resolveEnv w meta.rpcEnv = none) :
    (key, missingReading meta.rpcEnv) ∈ runResults w ∧
    missingReading meta.rpcEnv =
      { gas_price_gwei := none, priority_fee_gwei := none,
        error := some ("Missing env " ++ meta.rpcEnv) } ∧
    (∀ pf : String → Provider,
      (key, missingReading meta.rpcEnv) ∈
        runResults { w with providerOf := pf }) ∧
    (runResults w).map Prod.fst = CHAINS.map Prod.fst := by
  have hread : readingFor w meta = missingReading meta.rpcEnv := by
    simp [readingFor, henv]
  refine ⟨?_, rfl, ?_, rfl⟩
  · rw [← hread]
    exact List.mem_map_of_mem _ hmem
  · intro pf
    have henv' : resolveEnv { w with providerOf := pf } meta.rpcEnv = none := henv
    have hread' :
        readingFor { w with providerOf := pf } meta = missingReading meta.rpcEnv := by
      simp [readingFor, henv']
    rw [← hread']
    exact List.mem_map_of_mem _ hmem

/-- Witness for C5: the `base` chain of the concrete world with
`RPC_BASE` unset. -/
theorem missing_env_reading_witness :
    ("base", missingReading "RPC_BASE") ∈ runResults worldMissingBase :=
  (missing_env_reading worldMissingBase "base" ⟨"Base", "RPC_BASE"⟩ (by decide)
    (by decide)).1

/-! ## The recommendation sentence (C3) -/

/-- A provider answering with a fixed gas price (wei) and a single
fee-history reward (wei). -/
def scenarioProvider (gasWei rewardWei : Int) : Provider :=
  { getGasPrice := .ok gasWei,
    getBlockNumber := .ok 100,
    feeHistory := fun _ => .ok ⟨some [some [rewardWei]]⟩ }

/-- The §8 scenario world: `base 12/1.2`, `optimism 6/0.8`,
`arbitrum 9/1.0` (gwei), all RPC variables set. -/
def scenarioWorld : World :=
  { timestamp := "2025-09-28T12:00:00Z",
    env := fun v =>
      if v == "RPC_BASE" then some "https://base.example"
      else if v == "RPC_OPTIMISM" then some "https://op.example"
      else if v == "RPC_ARBITRUM" then some "https://arb.example"
      else none,
    providerOf := fun u =>
      if u == "https://base.example" then scenarioProvider 12000000000 1200000000
      else if u == "https://op.example" then scenarioProvider 6000000000 800000000
      else scenarioProvider 9000000000 1000000000,
    postResult := .ok (),
    writeOk := true }

/-- C3 (code bug): on the §8 scenario the Ranker selects `optimism`
(score 6.8, lowest), but the recommendation sentence interpolates the
chain id `optimism` — not the registry display name `Optimism` that the
README example shows; the registry's display names are never used by the
recommendation. -/
theorem recommendation_uses_chain_id_not_display_name :
    (runReport scenarioWorld).best_chain = some "optimism" ∧
    (runReport scenarioWorld).recommendation =
      "Send your transactions on optimism now for lowest fees." ∧
    (runReport scenarioWorld).recommendation ≠
      "Send your transactions on Optimism now for lowest fees." ∧
    (CHAINS.lookup "optimism").map ChainMeta.name = some "Optimism" := by
  have hfetch : ∀ gw rwei : Int, fetchGasData (scenarioProvider gw rwei) =
      ⟨some ((gw : ℚ) / (10 ^ 9 : ℚ)), some ((rwei : ℚ) / (10 ^ 9 : ℚ)), none⟩ := by
    intro gw rwei
    simp [fetchGasData, estimatePriorityFee, scenarioProvider, rewards,
      Int.tdiv_one]
  have hbase : readingFor scenarioWorld ⟨"Base", "RPC_BASE"⟩ =
      ⟨some 12, some (6/5), none⟩ := by
    have hb : readingFor scenarioWorld ⟨"Base", "RPC_BASE"⟩ =
        fetchGasData (scenarioProvider 12000000000 1200000000) := rfl
    rw [hb, hfetch]
    norm_num
  have hop : readingFor scenarioWorld ⟨"Optimism", "RPC_OPTIMISM"⟩ =
      ⟨some 6, some (4/5), none⟩ := by
    have hb : readingFor scenarioWorld ⟨"Optimism", "RPC_OPTIMISM"⟩ =
        fetchGasData (scenarioProvider 6000000000 800000000) := rfl
    rw [hb, hfetch]
    norm_num
  have harb : readingFor scenarioWorld ⟨"Arbitrum", "RPC_ARBITRUM"⟩ =
      ⟨some 9, some 1, none⟩ := by
    have hb : readingFor scenarioWorld ⟨"Arbitrum", "RPC_ARBITRUM"⟩ =
        fetchGasData (scenarioProvider 9000000000 1000000000) := rfl
    rw [hb, hfetch]
    norm_num
  have hrun : runResults scenarioWorld =
      [("base", ⟨some 12, some (6/5), none⟩),
       ("optimism", ⟨some 6, some (4/5), none⟩),
       ("arbitrum", ⟨some 9, some 1, none⟩)] := by
    simp [runResults, CHAINS, hbase, hop, harb]
  have hbest : chooseBestChain (runResults scenarioWorld) = some "optimism" := by
    rw [hrun]
    simp only [chooseBestChain, List.foldl_cons, List.foldl_nil]
    norm_num [chooseStep, hasError, scoreOf]
  have hbc : (runReport scenarioWorld).best_chain =
      chooseBestChain (runResults scenarioWorld) := rfl
  have hrec : (runReport scenarioWorld).recommendation =
      recommendationFor (chooseBestChain (runResults scenarioWorld)) := rfl
  refine ⟨?_, ?_, ?_, by decide⟩
  · rw [hbc, hbest]
  · rw [hrec, hbest]
    decide
  · rw [hrec, hbest]
    decide

/-! ## Best-effort priority fee (C6, C7) -/

/-- C6: whenever the primary gas-price call succeeds and the best-effort
priority-fee estimation fails, the reading keeps the valid gas price, has
an absent priority fee, and carries no error; and each failure mode of
the secondary step — the block-number call rejecting, the fee-history
call rejecting, or the response carrying no usable rewards — makes the
estimate absent. -/
theorem secondary_failure_not_an_error :
    (∀ (p : Provider) (gp : Int), p.getGasPrice = .ok gp →
      estimatePriorityFee p = none →
      fetchGasData p =
        { gas_price_gwei := some ((gp : ℚ) / (10 ^ 9 : ℚ)),
          priority_fee_gwei := none, error := none }) ∧
    (∀ (p : Provider) (e : String), p.getBlockNumber = .error e →
      estimatePriorityFee p = none) ∧
    (∀ (p : Provider) (latest : Int) (e : String),
      p.getBlockNumber = .ok latest →
      p.feeHistory ⟨5, latest, [50]⟩ = .error e →
      estimatePriorityFee p = none) ∧
    (∀ (p : Provider) (latest : Int) (res : FeeHistoryRes),
      p.getBlockNumber = .ok latest →
      p.feeHistory ⟨5, latest, [50]⟩ = .ok res →
      (∀ rw, res.reward = some rw → rewards rw = []) →
      estimatePriorityFee p = none) := by
  refine ⟨?_, ?_, ?_, ?_⟩
  · intro p gp hgp hest
    simp [fetchGasData, hgp, hest]
  · intro p e hbn
    simp [estimatePriorityFee, hbn]
  · intro p latest e hbn hfh
    simp [estimatePriorityFee, hbn, hfh]
  · intro p latest res hbn hfh hrw
    cases hr : res.reward with
    | none => simp [estimatePriorityFee, hbn, hfh, hr]
    | some rw =>
      have hempty := hrw rw hr
      by_cases hnil : rw.isEmpty
      · simp [estimatePriorityFee, hbn, hfh, hr, hnil]
      · simp [estimatePriorityFee, hbn, hfh, hr, hnil, hempty]

/-- A provider whose primary call succeeds and whose fee-history support
is entirely missing. -/
def providerNoFeeHistory : Provider :=
  { getGasPrice := .ok 12000000000,
    getBlockNumber := .error "the method eth_blockNumber does not exist",
    feeHistory := fun _ => .error "the method eth_feeHistory does not exist" }

/-- Witness for C6: a provider without fee-history support still yields a
valid gas price, an absent priority fee and no error. -/
theorem secondary_failure_not_an_error_witness :
    fetchGasData providerNoFeeHistory =
      { gas_price_gwei := some ((12000000000 : ℚ) / (10 ^ 9 : ℚ)),
        priority_fee_gwei := none, error := none } :=
  secondary_failure_not_an_error.1 providerNoFeeHistory 12000000000 rfl rfl

/-- C7: the fetcher consults the fee-history endpoint only through the
one request for the 5 most recent blocks at the 50th-percentile tier
ending at the queried latest block (two providers agreeing on the other
calls and on that one response fetch identically); and a successful
estimation is the truncating integer mean (sum `tdiv` count) of exactly
the rewards of the blocks that report one, divided by `10^9`. -/
theorem priority_fee_window_and_mean :
    (∀ (p q : Provider) (latest : Int),
      p.getGasPrice = q.getGasPrice →
      p.getBlockNumber = .ok latest →
      q.getBlockNumber = .ok latest →
      p.feeHistory ⟨5, latest, [50]⟩ = q.feeHistory ⟨5, latest, [50]⟩ →
      fetchGasData p = fetchGasData q) ∧
    (∀ (p : Provider) (latest : Int) (res : FeeHistoryRes)
        (rw : List (Option (List Int))),
      p.getBlockNumber = .ok latest →
      p.feeHistory ⟨5, latest, [50]⟩ = .ok res →
      res.reward = some rw →
      rewards rw ≠ [] →
      estimatePriorityFee p =
        some ((((rewards rw).sum.tdiv ((rewards rw).length : ℤ) : ℤ) : ℚ) /
          (10 ^ 9 : ℚ))) := by
  constructor
  · intro p q latest hgp hbp hbq hfh
    have hest : estimatePriorityFee p = estimatePriorityFee q := by
      unfold estimatePriorityFee
      simp only [hbp, hbq, hfh]
    unfold fetchGasData
    rw [← hgp]
    cases p.getGasPrice with
    | error e => rfl
    | ok gp => rw [hest]
  · intro p latest res rw hbn hfh hr hne
    have hrwne : rw.isEmpty = false := by
      cases rw with
      | nil => exact absurd (by rfl) hne
      | cons hd tl => rfl
    have hfmne : (rewards rw).isEmpty = false := by
      cases hfm : rewards rw with
      | nil => exact absurd hfm hne
      | cons hd tl => rfl
    simp only [estimatePriorityFee, hbn, hfh, hr, hrwne, hfmne,
      Bool.false_eq_true, if_false, List.sum_eq_foldl]

/-- A provider answering the specified fee-history window (and only it)
with three blocks, the middle one reporting no reward. -/
def providerPartialRewards : Provider :=
  { getGasPrice := .ok 1000000000,
    getBlockNumber := .ok 100,
    feeHistory := fun req =>
      if req = ⟨5, 100, [50]⟩ then .ok ⟨some [some [3000000000], none, some [5000000000]]⟩
      else .error "unexpected request" }

/-- Witness for C7: only the two reporting blocks contribute; the mean is
`(3 + 5) / 2 = 4` gwei-scale wei, truncating division included. -/
theorem priority_fee_window_and_mean_witness :
    estimatePriorityFee providerPartialRewards =
      some ((((rewards [some [3000000000], none, some [5000000000]]).sum.tdiv
        ((rewards [some [3000000000], none, some [5000000000]]).length : ℤ) :
          ℤ) : ℚ) / (10 ^ 9 : ℚ)) :=
  priority_fee_window_and_mean.2 providerPartialRewards 100
    ⟨some [some [3000000000], none, some [5000000000]]⟩
    [some [3000000000], none, some [5000000000]] rfl rfl rfl (by decide)

/-! ## Webhook failure is non-fatal (C8) -/

/-- C8: with the write succeeding, a webhook configured and its delivery
failing, the full run trace is: report written first, write logged,
webhook POST attempted after the write, the failure logged as a warning —
and the run exits 0. -/
theorem webhook_failure_nonfatal (w : World) (url e : String)
    (hw : w.writeOk = true) (hu : resolveEnv w "WEBHOOK_URL" = some url)
    (hp : w.postResult = .error e) :
    main w =
      ([Event.wrote (reportFilename w.timestamp) (reportToJson (runReport w)),
        Event.loggedMsg ("Wrote " ++ reportFilename w.timestamp),
        Event.postAttempt url (reportToJson (runReport w)),
        Event.warned ("Webhook post failed: " ++ e),
        Event.printedReport (reportToJson (runReport w))], 0) := by
  simp [main, hw, hu, hp]

/-- A world with all RPC endpoints unreachable, a webhook configured, and
the POST failing. -/
def worldWebhookFail : World :=
  { timestamp := "2025-09-28T12:00:00Z",
    env := fun v => if v == "WEBHOOK_URL" then some "https://hooks.example/gas" else none,
    providerOf := fun _ =>
      { getGasPrice := .error "unreachable", getBlockNumber := .error "unreachable",
        feeHistory := fun _ => .error "unreachable" },
    postResult := .error "connect ECONNREFUSED",
    writeOk := true }

/-- Witness for C8: the concrete unreachable-webhook world. -/
theorem webhook_failure_nonfatal_witness :
    main worldWebhookFail =
      ([Event.wrote (reportFilename worldWebhookFail.timestamp)
          (reportToJson (runReport worldWebhookFail)),
        Event.loggedMsg ("Wrote " ++ reportFilename worldWebhookFail.timestamp),
        Event.postAttempt "https://hooks.example/gas"
          (reportToJson (runReport worldWebhookFail)),
        Event.warned ("Webhook post failed: " ++ "connect ECONNREFUSED"),
        Event.printedReport (reportToJson (runReport worldWebhookFail))], 0) :=
  webhook_failure_nonfatal worldWebhookFail "https://hooks.example/gas"
    "connect ECONNREFUSED" rfl (by decide) rfl

/-! ## Serialization round trip (C9) -/

theorem jsonToReading_readingToJson {r : GasReading} (h : WFReading r) :
    jsonToReading (readingToJson r) = some r := by
  obtain ⟨gp, pf, err⟩ := r
  rcases h with ⟨he, hg⟩ | ⟨he, hne, hg, hpf⟩
  · simp only at he hg
    subst he
    obtain ⟨g, hg'⟩ := Option.ne_none_iff_exists'.mp hg
    subst hg'
    cases pf <;> simp [readingToJson, jsonToReading, List.lookup]
  · simp only at he hg hpf
    subst hg
    subst hpf
    cases herr : err with
    | none => exact absurd herr he
    | some e => simp [readingToJson, jsonToReading, List.lookup]

theorem chains_roundtrip (l : List (String × GasReading))
    (h : ∀ kv ∈ l, WFReading kv.2) :
    decodeChains (l.map (fun kv => (kv.1, readingToJson kv.2))) = some l := by
  induction l with
  | nil => rfl
  | cons hd tl ih =>
    have hhd := jsonToReading_readingToJson (h hd (List.mem_cons_self _ _))
    have htl := ih (fun kv hkv => h kv (List.mem_cons_of_mem _ hkv))
    simp [decodeChains, hhd, htl]

/-- C9: serializing a report whose per-chain readings conform to the data
model and parsing it back reproduces exactly the timestamp, best chain
id, recommendation text and chains map — serialization followed by
parsing is the identity.  (The textual rendering of the JSON value and
its re-parsing are the platform's `JSON.stringify`/`JSON.parse`, mutually
inverse by the JSON standard; the report-to-JSON-value mapping is what
this code determines.) -/
theorem report_roundtrip (rep : Report)
    (h : ∀ kv ∈ rep.chains, WFReading kv.2) :
    jsonToReport (reportToJson rep) = some rep := by
  obtain ⟨ts, best, rec, chains⟩ := rep
  simp only at h
  have hc := chains_roundtrip chains h
  cases best <;> simp [reportToJson, jsonToReport, List.lookup, hc]

/-- A concrete report with a successful, a degraded and an errored chain. -/
def exReport : Report :=
  { timestamp := "2025-09-28T12:00:00Z",
    best_chain := some "optimism",
    recommendation := recommendationFor (some "optimism"),
    chains := [("base", ⟨some 12, some (6/5), none⟩),
               ("optimism", ⟨some 6, none, none⟩),
               ("arbitrum", ⟨none, none, some "rpc down"⟩)] }

/-- Witness for C9: the round trip on the concrete report. -/
theorem report_roundtrip_witness :
    jsonToReport (reportToJson exReport) = some exReport :=
  report_roundtrip exReport (by decide)

end GasOpt
